import Mathlib

/-!
Verification development for the Swarm-Tools repository (Rust).

The Rust sources are shallowly embedded: pure functions become Lean
functions, stateful operations become explicit state passing, `f64`
values become `ℚ` (the numeric literals involved — 0.80, 0.15, 0.7,
0.85, 0.2 — and the comparisons/means/variances taken over them stay
well within the exactly-representable regime discussed at each use
site), `u32`/`usize` become `ℕ`, and fallible operations return
`Except`.  Rust `HashMap`/`HashSet` values are embedded as association
lists, with iteration order passed explicitly as a parameter wherever
the Rust code iterates a `HashMap` (Rust's `RandomState` hashing makes
that order run-dependent, so it is genuine nondeterministic input).
-/

namespace SwarmTools

/-! ## Generic helpers (association lists, stable sort, strings) -/

/-- Lookup in an association list; mirrors `HashMap::get(..).copied().unwrap_or(0)`
style access (the default is supplied at each call site). -/
def lookupD (m : List (String × ℕ)) (k : String) (d : ℕ) : ℕ :=
  match m with
  | [] => d
  | (k2, v) :: rest => if k2 = k then v else lookupD rest k d

/-- Insert/overwrite in an association list; mirrors `HashMap::insert`. -/
def insertA (m : List (String × ℕ)) (k : String) (v : ℕ) : List (String × ℕ) :=
  match m with
  | [] => [(k, v)]
  | (k2, v2) :: rest => if k2 = k then (k, v) :: rest else (k2, v2) :: insertA rest k v

/-- Stable insertion used by `stableSort`: `before a b` means `a` must come
strictly before `b`; an element is placed after every earlier element that
strictly precedes it, so original order is kept among ties — the observable
behavior of Rust's stable `sort_by`. -/
def stableInsert (before : α → α → Bool) (a : α) : List α → List α
  | [] => [a]
  | b :: bs => if before b a then b :: stableInsert before a bs else a :: b :: bs

/-- Stable sort (insertion sort), embedding Rust's stable `slice::sort_by`. -/
def stableSort (before : α → α → Bool) : List α → List α
  | [] => []
  | a :: as => stableInsert before a (stableSort before as)

/-- Does the list start with the given needle?  (Embedding of byte-wise
prefix testing used by substring search.) -/
def startsWithL [DecidableEq α] : List α → List α → Bool
  | [], _ => true
  | _ :: _, [] => false
  | a :: as, b :: bs => a = b && startsWithL as bs

/-- Substring search over character lists: true iff `needle` occurs
contiguously in `hay`.  This is the semantics of `Regex::is_match` for the
literal patterns used by the compressor. -/
def containsSub [DecidableEq α] (needle : List α) : List α → Bool
  | [] => decide (needle = [])
  | b :: bs => startsWithL needle (b :: bs) || containsSub needle bs

/-- ASCII-wise lowercasing, the embedding of `str::to_lowercase` (the
sources only ever match ASCII patterns, where the two coincide). -/
def lowerStr (s : String) : String := String.mk (s.data.map Char.toLower)

/-- True iff `needle` occurs as a substring of `hay`. -/
def strContainsSub (hay needle : String) : Bool := containsSub needle.data hay.data

/-- `split_whitespace` on a character list: maximal runs of
non-whitespace characters, with no empty words. -/
def splitWsAux : List Char → List Char → List (List Char)
  | [], acc => if acc = [] then [] else [acc.reverse]
  | c :: cs, acc =>
    if c.isWhitespace then
      (if acc = [] then splitWsAux cs [] else acc.reverse :: splitWsAux cs [])
    else splitWsAux cs (c :: acc)

/-- Embedding of `prompt.to_lowercase().split_whitespace()`. -/
def splitWords (s : String) : List String :=
  (splitWsAux (s.data.map Char.toLower) []).map String.mk

/-! ## Trajectory compression (`src/trajectory_compressor.rs`, `src/enhanced_monitor.rs`)

`EnhancedMonitor` and `TrajectoryCompressor` both implement the
`TrajectoryCompression` trait; both `should_compress` implementations are
embedded below because they differ. -/

/-- `types::TrajectoryEntry`; `impact_score: f64` becomes `ℚ`,
`tokens_used: u32` becomes `ℕ`. -/
structure TrajectoryEntry where
  timestamp : String
  action : String
  outcome : String
  is_repeat : Bool
  impact_score : ℚ
  succeeded : Bool
  tokens_used : ℕ
deriving DecidableEq, Repr

/-- `types::TrajectoryLog`. -/
structure TrajectoryLog where
  entries : List TrajectoryEntry
  tokens_used : ℕ
  compressibility_score : ℚ
  created_at : String
deriving DecidableEq, Repr

/-- `types::SummaryGroup`. -/
structure SummaryGroup where
  pattern : String
  count : ℕ
  consolidated_description : String
  tokens_saved : ℕ
deriving DecidableEq, Repr

/-- `types::CompressedTrajectory` (`debug_raw` is always `None` in the
embedded code paths and is omitted). -/
structure CompressedTrajectory where
  preserved : List TrajectoryEntry
  summarized : List SummaryGroup
  compression_ratio : ℚ
deriving DecidableEq, Repr

namespace EnhancedMonitor

/-- `EnhancedMonitor::should_compress` (enhanced_monitor.rs:656-658):
`context_pct > 0.80 && (steps >= 18 || tokens >= 25000)`. -/
def should_compress (context_pct : ℚ) (steps tokens : ℕ) : Bool :=
  decide (context_pct > 80/100) && (decide (steps ≥ 18) || decide (tokens ≥ 25000))

/-- `enhanced_monitor::ContextPercentageEntry`; `f64` fields become `ℚ`. -/
structure ContextPercentageEntry where
  percentage : ℚ
  timestamp : ℚ
deriving DecidableEq, Repr

/-- `enhanced_monitor::PredictedOverflow`. -/
structure PredictedOverflow where
  current_percentage : ℚ
  rate : ℚ
  time_to_threshold_seconds : ℚ
  time_to_threshold_minutes : ℚ
  predicted_overflow_time : ℚ
deriving DecidableEq, Repr

/-- `EnhancedMonitor::predict_context_overflow` (enhanced_monitor.rs:372-416).
`recent` is `context_percentage_history.iter().rev().take(10)` — the last 10
samples in NEWEST-FIRST order, so `first()` is the newest entry and
`last()` the oldest one of the window; the `?` operators on
`first()`/`last()` become Option binds. -/
def predict_context_overflow (context_threshold : ℚ)
    (context_percentage_history : List ContextPercentageEntry) :
    Option PredictedOverflow := do
  if context_percentage_history.length < 5 then none
  else
    let recent := context_percentage_history.reverse.take 10
    let percentages := recent.map (fun e => e.percentage)
    let timestamps := recent.map (fun e => e.timestamp)
    if percentages.length ≥ 2 then
      let tLast ← timestamps.getLast?
      let tFirst ← timestamps.head?
      let time_span := tLast - tFirst
      let pLast ← percentages.getLast?
      let pFirst ← percentages.head?
      let percentage_change := pLast - pFirst
      if time_span > 0 then
        let rate := percentage_change / time_span
        let current_pct ← percentages.getLast?
        if rate > 0 then
          let to_threshold := context_threshold - current_pct
          let time_to_threshold := to_threshold / rate
          if time_to_threshold > 0 then
            let tl ← timestamps.getLast?
            let overflow_time := tl + time_to_threshold
            pure { current_percentage := current_pct, rate := rate * 60,
                   time_to_threshold_seconds := time_to_threshold,
                   time_to_threshold_minutes := time_to_threshold / 60,
                   predicted_overflow_time := overflow_time }
          else none
        else none
      else none
    else none

/-- Modelled from the spec: `PredictContextOverflow` does "linear
extrapolation of the last ≤10 context-percentage samples; returns nothing
unless the trend is positive (rising) and there are ≥5 samples; otherwise
computes time_to_threshold = (threshold - current) / rate", where
`current` is the newest recorded percentage and `rate` the linear rate
over the window.  Only the predicted `time_to_threshold` is modelled. -/
def predictOverflowSpecModel (context_threshold : ℚ)
    (history : List ContextPercentageEntry) : Option ℚ := do
  if history.length < 5 then none
  else
    let window := history.reverse.take 10
    let newest ← window.head?
    let oldest ← window.getLast?
    if newest.timestamp ≤ oldest.timestamp then none
    else
      let rate := (newest.percentage - oldest.percentage) /
        (newest.timestamp - oldest.timestamp)
      if rate > 0 then pure ((context_threshold - newest.percentage) / rate)
      else none

/-- `types::TurnStats`. -/
structure TurnStats where
  turn_number : ℕ
  contribution : ℚ
  tokens_used : ℕ
  tasks_completed : ℕ
deriving DecidableEq, Repr

/-- `agent_usage_history.values().flat_map(|v| v.last().map(|t| t.contribution))`
in `check_imbalance` (enhanced_monitor.rs:864-868): the latest contribution
of every agent that has one. -/
def latestContributions (history : List (String × List TurnStats)) : List ℚ :=
  history.filterMap (fun p => p.2.getLast?.map (fun t => t.contribution))

/-- Mean of the latest contributions (enhanced_monitor.rs:874). -/
def meanQ (cs : List ℚ) : ℚ := cs.sum / (cs.length : ℚ)

/-- Population variance of the latest contributions (enhanced_monitor.rs:875-879). -/
def varianceQ (cs : List ℚ) : ℚ :=
  (cs.map (fun c => (c - meanQ cs) ^ 2)).sum / (cs.length : ℚ)

/-- `EnhancedMonitor::check_imbalance` (enhanced_monitor.rs:859-888).
The source computes `std_dev = variance.sqrt()` and tests
`std_dev / mean > 0.2` under the guard `mean > 0.0`; over the nonnegative
reals that conjunction holds iff `mean > 0 ∧ 25 * variance > mean²`,
which is the square-root-free (hence `ℚ`-expressible) form used here —
the equivalence with the literal `Real.sqrt` reading is proved in
`c7_check_imbalance_characterization`. -/
def check_imbalance (history : List (String × List TurnStats)) : Bool :=
  if history.length < 2 then false
  else
    let contributions := latestContributions history
    if contributions.length < 2 then false
    else decide (meanQ contributions > 0 ∧
      25 * varianceQ contributions > (meanQ contributions) ^ 2)

/-- The kind and subject of an audit note pushed to `adjustments` in
`reallocate_budget` (enhanced_monitor.rs:918-938).  The human-readable
strings' numeric formatting (`{:.2}` etc.) is not modelled; the note kind
and agent id are. -/
inductive AdjustmentNote where
  | reducedBudget (agent : String)
  | potentialPrune (agent : String)
  | highContributor (agent : String)
deriving DecidableEq, Repr

/-- `types::BudgetAllocation` (timestamp omitted — wall clock). -/
structure BudgetAllocation where
  per_agent : ℕ
  adjustments : List AdjustmentNote
  safety_reserve : ℕ
deriving DecidableEq, Repr

/-- `types::SwarmBudget`. -/
structure SwarmBudget where
  total_budget : ℕ
  allocated : List (String × ℕ)
  safety_reserve : ℕ
  min_per_agent : ℕ
deriving DecidableEq, Repr

/-- The `ResourceManager`-relevant fields of `EnhancedMonitor`.
`budget_min_per_agent` is `self.budget.min_per_agent`: the budget is
`Some` in every constructor (`SwarmBudget::default()` and
`new_resource_manager` both set `min_per_agent = 10000`), so the
`unwrap_or(10000)` on enhanced_monitor.rs:960-964 reads this value. -/
structure MonitorRM where
  agent_usage_history : List (String × List TurnStats)
  auto_reduce_low_contrib : Bool
  low_contrib_reduction_percent : ℚ
  pruning_contribution_threshold : ℚ
  budget_min_per_agent : ℕ
deriving DecidableEq, Repr

/-- `(total as f64 * 0.15) as u32` (enhanced_monitor.rs:891).  The `as u32`
cast truncates.  For every `u32`-ranged `total` this equals
`⌊3 * total / 20⌋` exactly: when `3*total/20` is an integer `k`, the two
f64 roundings land within half an ulp of `k` so the cast yields `k`; when
it is not an integer its distance to the next integer is ≥ 1/20, dwarfing
the ≤ 1e-7 floating-point error, so truncation again agrees. -/
def safetyReserve (total : ℕ) : ℕ := 3 * total / 20

/-- Per-agent average contribution (enhanced_monitor.rs:897-903):
mean of recorded contributions, or 0.5 with no recorded turns. -/
def avgContribution (turns : List TurnStats) : ℚ :=
  if turns ≠ [] then (turns.map (fun t => t.contribution)).sum / (turns.length : ℚ)
  else 1/2

/-- `agent_contributions` (enhanced_monitor.rs:894-907): per-agent mean
contributions, stably sorted by descending contribution.  The usage
history is iterated in stored (list) order — the `HashMap` iteration
order; every property proved below is independent of that order. -/
def agentContributions (m : MonitorRM) : List (String × ℚ) :=
  stableSort (fun a b => decide (b.2 < a.2))
    (m.agent_usage_history.map (fun p => (p.1, avgContribution p.2)))

/-- `reduced_agents` (enhanced_monitor.rs:916-925): with auto-reduction
enabled, the agents whose mean contribution is below the pruning
threshold. -/
def reducedAgents (m : MonitorRM) : List String :=
  (agentContributions m).filterMap (fun p =>
    if p.2 < m.pruning_contribution_threshold ∧ m.auto_reduce_low_contrib then some p.1
    else none)

/-- The audit notes (enhanced_monitor.rs:918-938). -/
def adjustmentNotes (m : MonitorRM) : List AdjustmentNote :=
  (agentContributions m).filterMap (fun p =>
    if p.2 < m.pruning_contribution_threshold then
      (if m.auto_reduce_low_contrib then some (.reducedBudget p.1)
       else some (.potentialPrune p.1))
    else if p.2 > 7/10 then some (.highContributor p.1)
    else none)

/-- `per_agent` (enhanced_monitor.rs:909-913 and the identical re-binding
at 940-949, whose inner if returns `base_per_agent` in both branches):
the post-reserve budget split evenly, or halved with no tracked agents. -/
def perAgentShare (m : MonitorRM) (total : ℕ) : ℕ :=
  if agentContributions m ≠ [] then
    (total - safetyReserve total) / (agentContributions m).length
  else (total - safetyReserve total) / 2

/-- `reduced_per_agent` (enhanced_monitor.rs:951-952): the per-agent share
shrunk by `low_contrib_reduction_percent`, `f64`-truncated to `u32` (an
`as u32` cast saturates negatives to 0, as `Int.toNat ∘ Int.floor` does). -/
def reducedPerAgent (m : MonitorRM) (total : ℕ) : ℕ :=
  Int.toNat ⌊(perAgentShare m total : ℚ) * (1 - m.low_contrib_reduction_percent / 100)⌋

/-- A concrete two-agent monitor with auto-reduction enabled and one
low contributor, used as witness input. -/
def exampleMonitorRM : MonitorRM :=
  { agent_usage_history :=
      [("agent_a", [{ turn_number := 0, contribution := 9/10, tokens_used := 1000,
                      tasks_completed := 1 }]),
       ("agent_b", [{ turn_number := 1, contribution := 1/10, tokens_used := 1000,
                      tasks_completed := 0 }])],
    auto_reduce_low_contrib := true,
    low_contrib_reduction_percent := 20,
    pruning_contribution_threshold := 3/10,
    budget_min_per_agent := 10000 }

/-- `EnhancedMonitor::reallocate_budget` (enhanced_monitor.rs:890-986):
returns the `BudgetAllocation` and stores the rebuilt `SwarmBudget`
wholesale. -/
def reallocate_budget (m : MonitorRM) (total : ℕ) : BudgetAllocation × SwarmBudget :=
  let allocated := (agentContributions m).map (fun p =>
    (p.1,
      if p.1 ∈ reducedAgents m ∧ p.2 < m.pruning_contribution_threshold then
        max (reducedPerAgent m total) m.budget_min_per_agent
      else perAgentShare m total))
  ({ per_agent := perAgentShare m total, adjustments := adjustmentNotes m,
     safety_reserve := safetyReserve total },
   { total_budget := total, allocated := allocated,
     safety_reserve := safetyReserve total, min_per_agent := 10000 })

end EnhancedMonitor

namespace TrajectoryCompressor

/-- `TrajectoryCompressorConfig` (the regex patterns are compiled in
`with_config`; the six default patterns are embedded as literal substring
tests in `is_superseded`). -/
structure Config where
  preserve_threshold : ℚ
  max_summaries : ℕ
  filter_redundant : Bool
  max_tokens : ℕ
deriving DecidableEq, Repr

/-- `TrajectoryCompressorConfig::default()`. -/
def Config.default : Config :=
  { preserve_threshold := 7/10, max_summaries := 10, filter_redundant := true,
    max_tokens := 10000 }

/-- The six default superseded regexes, all literal except `overrides?`,
whose matches are exactly the strings containing `"override"`. -/
def supersededDefaults : List String :=
  ["updated", "replaced", "superseded", "newer", "later", "override"]

/-- `TrajectoryCompressor::is_superseded`: any default pattern matches the
lowercased outcome. -/
def is_superseded (e : TrajectoryEntry) : Bool :=
  supersededDefaults.any (fun p => strContainsSub (lowerStr e.outcome) p)

/-- `TrajectoryCompressor::is_redundant`. -/
def is_redundant (cfg : Config) (e : TrajectoryEntry) : Bool :=
  !e.succeeded && e.is_repeat && decide (e.impact_score < cfg.preserve_threshold)

/-- `TrajectoryCompressor::should_compress` (trajectory_compressor.rs:153-155):
`context_pct > 0.80 || steps >= 18 || tokens >= 25000` — note the `||`
where the `EnhancedMonitor` implementation has `&&`. -/
def should_compress (context_pct : ℚ) (steps tokens : ℕ) : Bool :=
  decide (context_pct > 80/100) || decide (steps ≥ 18) || decide (tokens ≥ 25000)

/-- How the entry loop of `compress_trajectory` (trajectory_compressor.rs:163-171)
treats one entry: pushed to `preserved`, silently dropped, or pushed to
`low_impact`. -/
inductive EntryClass where
  | preserved
  | dropped
  | lowImpact
deriving DecidableEq, Repr

/-- The branch of the entry loop taken for an entry. -/
def classify (cfg : Config) (e : TrajectoryEntry) : EntryClass :=
  if e.impact_score ≥ cfg.preserve_threshold || e.succeeded then .preserved
  else if is_superseded e || is_redundant cfg e then .dropped
  else .lowImpact

/-- The `preserved` vector built by the entry loop. -/
def preservedEntries (cfg : Config) (log : TrajectoryLog) : List TrajectoryEntry :=
  log.entries.filter (fun e => classify cfg e = .preserved)

/-- The `low_impact` vector built by the entry loop. -/
def lowEntries (cfg : Config) (log : TrajectoryLog) : List TrajectoryEntry :=
  log.entries.filter (fun e => classify cfg e = .lowImpact)

/-- The `HashMap<action, Vec<entry>>` built by `group_and_summarize`,
read out in iteration order `ord` (a permutation of the distinct actions):
each group holds, in input order, the low-impact entries with that action. -/
def groupActions (ord : List String) (low : List TrajectoryEntry) :
    List (String × List TrajectoryEntry) :=
  ord.map (fun a => (a, low.filter (fun e => e.action = a)))

/-- Body of the `filter_map` in `group_and_summarize`
(trajectory_compressor.rs:250-280): groups of fewer than two entries are
discarded. -/
def summarizeGroup (g : String × List TrajectoryEntry) : Option SummaryGroup :=
  if g.2.length < 2 then none
  else
    let successful_count := (g.2.filter (fun e => e.succeeded)).length
    let failed_count := (g.2.filter (fun e => !e.succeeded)).length
    let count := g.2.length
    let tokens_saved := if count > 1 then (count - 1) * 100 else 0
    let pattern :=
      if failed_count > 0 && failed_count ≥ count / 2 then
        "failed_attempt_" ++ toString failed_count
      else if successful_count > 0 then
        "successful_attempt_" ++ toString successful_count
      else g.1
    some { pattern := pattern, count := count,
           consolidated_description := ((g.2.head?).map (fun e => e.outcome)).getD "",
           tokens_saved := tokens_saved }

/-- `TrajectoryCompressor::group_and_summarize`
(trajectory_compressor.rs:232-287), with the hash-map iteration order
`ord` explicit.  Summaries are stably sorted by descending count and
truncated to 10. -/
def group_and_summarize (ord : List String) (low : List TrajectoryEntry) :
    List SummaryGroup :=
  if low = [] then []
  else
    let summaries := (groupActions ord low).filterMap summarizeGroup
    (stableSort (fun a b => b.count < a.count) summaries).take 10

/-- `TrajectoryCompressor::compress_trajectory`
(trajectory_compressor.rs:157-194), with the hash-map iteration order of
`group_and_summarize` explicit. -/
def compress_trajectory (ord : List String) (cfg : Config) (log : TrajectoryLog) :
    CompressedTrajectory :=
  let preserved := preservedEntries cfg log
  let summarized := group_and_summarize ord (lowEntries cfg log)
  let original_tokens := log.tokens_used
  let preserved_tokens := (preserved.map (fun e => e.tokens_used)).sum
  let summarized_tokens := (summarized.map (fun s => s.tokens_saved)).sum
  let compressed_tokens := preserved_tokens + summarized_tokens / 3
  let compression_ratio :=
    if original_tokens > 0 then (compressed_tokens : ℚ) / (original_tokens : ℚ) else 0
  { preserved := preserved, summarized := summarized,
    compression_ratio := compression_ratio }

end TrajectoryCompressor

/-! ## Loop detector (`src/loop_detector.rs`) -/

/-- `types::LoopType`. -/
inductive LoopType where
  | ExactLoop
  | SemanticLoop
  | StateOscillation
deriving DecidableEq, Repr

/-- `types::LoopDetection`.  The wall-clock `timestamp` field is omitted;
SHA-256 prompt hashing (`hash_prompt`) is embedded as injective keying by
the prompt string itself, which is faithful up to hash collisions. -/
structure LoopDetection where
  detection_type : LoopType
  agent_id : String
  loop_count : ℕ
  prompt_hash : String
deriving DecidableEq, Repr

/-- The per-agent persisted files of the loop detector:
`{agent}_hashes.json`, `{agent}_history.json`, `{agent}_state.json`. -/
structure DetectorState where
  hashes : List (String × ℕ)
  promptHistory : List String
  stateHistory : List String
deriving DecidableEq, Repr

/-- Empty persisted state (no files on disk yet). -/
def DetectorState.empty : DetectorState :=
  { hashes := [], promptHistory := [], stateHistory := [] }

namespace LoopDetector

/-- `LoopDetector::load_hashes` (loop_detector.rs:80-88) for a file that
exists, as a function of the `serde_json::from_str` outcome (serde is an
external crate; the `?` on line 84 propagates its error), and for a
missing file, which yields the empty map. -/
def load_hashes (fileExists : Bool) (parsed : Except String (List (String × ℕ))) :
    Except String (List (String × ℕ)) :=
  if fileExists then parsed else .ok []

/-- `LoopDetector::load_prompt_history` (loop_detector.rs:100-108); same
shape as `load_hashes`. -/
def load_prompt_history (fileExists : Bool) (parsed : Except String (List String)) :
    Except String (List String) :=
  if fileExists then parsed else .ok []

/-- `LoopDetector::load_state_history` (loop_detector.rs:120-128); same
shape as `load_hashes`. -/
def load_state_history (fileExists : Bool) (parsed : Except String (List String)) :
    Except String (List String) :=
  if fileExists then parsed else .ok []

/-- `LoopDetector::check_exact_loop` (loop_detector.rs:140-163): bump the
persisted per-prompt counter, fire `ExactLoop` when the new count reaches
the threshold. -/
def check_exact_loop (threshold : ℕ) (st : DetectorState) (agent_id prompt : String) :
    Option LoopDetection × DetectorState :=
  let count := lookupD st.hashes prompt 0
  let st2 := { st with hashes := insertA st.hashes prompt (count + 1) }
  if count + 1 ≥ threshold then
    (some { detection_type := .ExactLoop, agent_id := agent_id,
            loop_count := count + 1, prompt_hash := prompt }, st2)
  else (none, st2)

/-- Outputs of `n` successive `check_exact_loop` calls with a fixed agent
and prompt, starting from `st`. -/
def iterExact (threshold : ℕ) (agent_id prompt : String) :
    DetectorState → ℕ → List (Option LoopDetection)
  | _, 0 => []
  | st, n + 1 =>
    let r := check_exact_loop threshold st agent_id prompt
    r.1 :: iterExact threshold agent_id prompt r.2 n

/-- `LoopDetector::jaccard_similarity` (loop_detector.rs:187-207):
`words1`/`words2` are the word sets of the lowercased prompts; empty
either way gives 0, otherwise |intersection| / |union|. -/
def jaccard_similarity (prompt1 prompt2 : String) : ℚ :=
  if (splitWords prompt1).toFinset = ∅ ∨ (splitWords prompt2).toFinset = ∅ then 0
  else (((splitWords prompt1).toFinset ∩ (splitWords prompt2).toFinset).card : ℚ) /
    (((splitWords prompt1).toFinset ∪ (splitWords prompt2).toFinset).card : ℚ)

/-- `LoopDetector::check_semantic_loop` (loop_detector.rs:209-237).  The
similarity provider is a parameter: with no embedding model loaded
(`SemanticEngine::new` loads none, so `is_loaded()` is false in
`LoopDetector::new`) it is `jaccard_similarity`.  Counts how many of the
last `threshold` history prompts are similar above 0.85. -/
def check_semantic_loop (sim : String → String → ℚ) (threshold : ℕ)
    (st : DetectorState) (agent_id prompt : String) : Option LoopDetection :=
  let similarity_count :=
    ((st.promptHistory.reverse.take threshold).filter
      (fun h => decide (sim prompt h > 85/100))).length
  if similarity_count ≥ threshold then
    some { detection_type := .SemanticLoop, agent_id := agent_id,
           loop_count := similarity_count, prompt_hash := prompt }
  else none

/-- Elements at indices 0, 2, 4, … — `iter().step_by(2)`. -/
def stepTwo : List α → List α
  | [] => []
  | [a] => [a]
  | a :: _ :: rest => a :: stepTwo rest

/-- Lines 246-249 of `check_state_oscillation`: push the new state and cap
the history at 20 entries, evicting the oldest (`history.remove(0)`). -/
def pushedHistory (history0 : List String) (state : String) : List String :=
  let history1 := history0 ++ [state]
  if history1.length > 20 then history1.tail else history1

/-- `LoopDetector::check_state_oscillation` (loop_detector.rs:239-279) on
a loaded state history: push the new state, cap the history at 20 (oldest
evicted), then fire `StateOscillation` iff the most recent `2*threshold`
window alternates strictly between two distinct states. -/
def check_state_oscillation (threshold : ℕ) (history0 : List String)
    (agent_id state : String) : Option LoopDetection × List String :=
  let history := pushedHistory history0 state
  if history.length ≥ threshold * 2 then
    let recent := history.drop (history.length - threshold * 2)
    let odd_states := stepTwo recent
    let even_states := stepTwo recent.tail
    if odd_states.dedup.length = 1 ∧ even_states.dedup.length = 1 then
      if odd_states.head? ≠ even_states.head? then
        (some { detection_type := .StateOscillation, agent_id := agent_id,
                loop_count := threshold, prompt_hash := "" }, history)
      else (none, history)
    else (none, history)
  else (none, history)

/-- Outputs of successive `check_state_oscillation` calls (one per listed
state) starting from an empty persisted state history. -/
def iterOsc (threshold : ℕ) (agent_id : String) :
    List String → List String → List (Option LoopDetection)
  | _, [] => []
  | hist, s :: rest =>
    let r := check_state_oscillation threshold hist agent_id s
    r.1 :: iterOsc threshold agent_id r.2 rest

/-- `LoopDetector::check_all_loops` (loop_detector.rs:281-314): push the
prompt to the prompt history (cap 50), push the state to the state
history (cap 20), then run the exact, semantic and oscillation checks in
order, returning the first detection.  The oscillation step loads the
state history just saved here and pushes the state AGAIN before its
window check. -/
def check_all_loops (sim : String → String → ℚ) (exactTh semTh oscTh : ℕ)
    (st : DetectorState) (agent_id prompt state : String) :
    Option LoopDetection × DetectorState :=
  let ph1 := st.promptHistory ++ [prompt]
  let ph := if ph1.length > 50 then ph1.tail else ph1
  let st1 : DetectorState :=
    { st with promptHistory := ph, stateHistory := pushedHistory st.stateHistory state }
  let r1 := check_exact_loop exactTh st1 agent_id prompt
  match r1.1 with
  | some d => (some d, r1.2)
  | none =>
    match check_semantic_loop sim semTh r1.2 agent_id prompt with
    | some d => (some d, r1.2)
    | none =>
      let r3 := check_state_oscillation oscTh r1.2.stateHistory agent_id state
      (r3.1, { r1.2 with stateHistory := r3.2 })

/-- Final detector state after `n` identical `check_all_loops` calls. -/
def runAllCalls (sim : String → String → ℚ) (exactTh semTh oscTh : ℕ)
    (agent_id prompt state : String) : DetectorState → ℕ → DetectorState
  | st, 0 => st
  | st, n + 1 =>
    runAllCalls sim exactTh semTh oscTh agent_id prompt state
      (check_all_loops sim exactTh semTh oscTh st agent_id prompt state).2 n

end LoopDetector

/-- The claim's wording of the oscillation condition on a window: the
even-indexed positions all hold one state, the odd-indexed positions all
hold another, and the two states differ. -/
def alternatesTwoStates (w : List String) : Prop :=
  ∃ a b, a ≠ b ∧ ∀ i, i < w.length → w.get? i = some (if i % 2 = 0 then a else b)

/-! ## Fixtures for the compression counterexample -/

/-- A low-impact, unsuccessful, non-repeat entry whose action and outcome
are the given name. -/
def mkLowEntry (a : String) : TrajectoryEntry :=
  { timestamp := "t", action := a, outcome := a, is_repeat := false,
    impact_score := 0, succeeded := false, tokens_used := 100 }

/-- Eleven distinct action names. -/
def exampleActions : List String :=
  ["g01", "g02", "g03", "g04", "g05", "g06", "g07", "g08", "g09", "g10", "g11"]

/-- A trajectory with eleven actions of two low-impact entries each: eleven
summary groups all of count 2, one more than the 10-group truncation cap. -/
def exampleLog11 : TrajectoryLog :=
  { entries := exampleActions.flatMap (fun a => [mkLowEntry a, mkLowEntry a]),
    tokens_used := 2200, compressibility_score := 0, created_at := "t" }

end SwarmTools

namespace SwarmTools

/-! ## Claim C1 -/

/-- C1 counterexample: the claim asserts `should_compress(0.80, 18, 25000)`
is false for both implementations, but `TrajectoryCompressor::should_compress`
is a disjunction and `steps >= 18` alone makes it true. -/
theorem c1_should_compress_or_counterexample :
    TrajectoryCompressor.should_compress (80/100) 18 25000 = true := by
  simp [TrajectoryCompressor.should_compress]

/-- C1 (amended): `EnhancedMonitor::should_compress` is true iff
`context_pct > 0.80` AND (`steps ≥ 18` OR `tokens ≥ 25000`) — so
`(0.80,18,25000)` is false and `(0.81,18,25000)` is true there — while
`TrajectoryCompressor::should_compress` is true iff `context_pct > 0.80`
OR `steps ≥ 18` OR `tokens ≥ 25000`. -/
theorem c1_should_compress_characterization :
    (∀ (c : ℚ) (s t : ℕ),
      (EnhancedMonitor.should_compress c s t = true ↔
        c > 80/100 ∧ (s ≥ 18 ∨ t ≥ 25000)) ∧
      (TrajectoryCompressor.should_compress c s t = true ↔
        c > 80/100 ∨ s ≥ 18 ∨ t ≥ 25000)) ∧
    EnhancedMonitor.should_compress (80/100) 18 25000 = false ∧
    EnhancedMonitor.should_compress (81/100) 18 25000 = true := by
  refine ⟨fun c s t => ⟨?_, ?_⟩, ?_, ?_⟩
  · simp [EnhancedMonitor.should_compress]
  · simp [TrajectoryCompressor.should_compress, or_assoc]
  · simp [EnhancedMonitor.should_compress]
  · simp [EnhancedMonitor.should_compress]
    norm_num

/-! ## Claim C2 -/

theorem lookupD_insertA (m : List (String × ℕ)) (k : String) (v : ℕ) :
    lookupD (insertA m k v) k 0 = v := by
  induction m with
  | nil => simp [insertA, lookupD]
  | cons p rest ih =>
    by_cases h : p.1 = k
    · simp [insertA, lookupD, h]
    · simp [insertA, lookupD, h, ih]

theorem iterExact_get (threshold : ℕ) (agent_id prompt : String) :
    ∀ (n i : ℕ) (st : DetectorState), i < n →
      (LoopDetector.iterExact threshold agent_id prompt st n).get? i =
        some (if threshold ≤ lookupD st.hashes prompt 0 + i + 1 then
          some { detection_type := .ExactLoop, agent_id := agent_id,
                 loop_count := lookupD st.hashes prompt 0 + i + 1,
                 prompt_hash := prompt }
        else none) := by
  intro n
  induction n with
  | zero => intro i st h; omega
  | succ n ih =>
    intro i st _
    match i with
    | 0 =>
      simp only [LoopDetector.iterExact, LoopDetector.check_exact_loop, List.get?,
        Nat.add_zero]
      by_cases h : threshold ≤ lookupD st.hashes prompt 0 + 1
      · simp [h]
      · simp [h]
    | j + 1 =>
      have hj : j < n := by omega
      simp only [LoopDetector.iterExact, LoopDetector.check_exact_loop]
      by_cases h : lookupD st.hashes prompt 0 + 1 ≥ threshold
      · simp only [h, if_true, List.get?]
        rw [ih j _ hj]
        simp only [lookupD_insertA]
        have : lookupD st.hashes prompt 0 + 1 + j + 1 =
            lookupD st.hashes prompt 0 + (j + 1) + 1 := by omega
        rw [this]
      · simp only [h, if_false, List.get?]
        rw [ih j _ hj]
        simp only [lookupD_insertA]
        have : lookupD st.hashes prompt 0 + 1 + j + 1 =
            lookupD st.hashes prompt 0 + (j + 1) + 1 := by omega
        rw [this]

/-- C2 counterexample: with threshold 3 and a fixed prompt, four calls to
`check_exact_loop` from empty persisted counts return Some on BOTH the
third and fourth call (loop_count 3 then 4) — not "exactly once over the
N calls" as claimed. -/
theorem c2_exact_loop_counterexample :
    LoopDetector.iterExact 3 "agent1" "X" DetectorState.empty 4 =
      [none, none,
       some { detection_type := .ExactLoop, agent_id := "agent1",
              loop_count := 3, prompt_hash := "X" },
       some { detection_type := .ExactLoop, agent_id := "agent1",
              loop_count := 4, prompt_hash := "X" }] ∧
    ((LoopDetector.iterExact 3 "agent1" "X" DetectorState.empty 4).filter
      (fun r => r.isSome)).length = 2 := by
  constructor <;> decide

/-- C2 (amended): for every threshold, prompt and agent, starting from
empty persisted counts, the i-th call (1-based, i = idx+1) to
`check_exact_loop` returns None while i < threshold and returns Some
ExactLoop with loop_count = i on EVERY call with i ≥ threshold; with
threshold 3, calls 1 and 2 return None and call 3 is the first firing
call, with loop_count 3. -/
theorem c2_exact_loop_call_pattern (threshold : ℕ) (agent_id prompt : String)
    (n idx : ℕ) (h : idx < n) :
    (LoopDetector.iterExact threshold agent_id prompt DetectorState.empty n).get? idx =
      some (if threshold ≤ idx + 1 then
        some { detection_type := .ExactLoop, agent_id := agent_id,
               loop_count := idx + 1, prompt_hash := prompt }
      else none) := by
  have := iterExact_get threshold agent_id prompt n idx DetectorState.empty h
  simpa [DetectorState.empty, lookupD] using this

/-- C2 witness: with threshold 3, the second call returns None and the
third returns the detection with loop_count 3. -/
theorem c2_exact_loop_call_pattern_witness :
    (LoopDetector.iterExact 3 "a" "X" DetectorState.empty 3).get? 1 = some none ∧
    (LoopDetector.iterExact 3 "a" "X" DetectorState.empty 3).get? 2 =
      some (some { detection_type := .ExactLoop, agent_id := "a",
                   loop_count := 3, prompt_hash := "X" }) := by
  constructor
  · have := c2_exact_loop_call_pattern 3 "a" "X" 3 1 (by decide)
    simpa using this
  · have := c2_exact_loop_call_pattern 3 "a" "X" 3 2 (by decide)
    simpa using this

/-! ## Claim C4 -/

/-- C4 counterexample: a persisted hashes file that exists but fails to
parse makes `load_hashes` return the parse error (the `?` on
loop_detector.rs:84 propagates it) — not `Ok` with an empty map as the
claim states. -/
theorem c4_load_malformed_counterexample :
    LoopDetector.load_hashes true (Except.error "corrupt") = Except.error "corrupt" ∧
    LoopDetector.load_hashes true (Except.error "corrupt") ≠ Except.ok [] := by
  constructor <;> simp [LoopDetector.load_hashes]

/-- C4 (amended): the load operations return the empty/default history
only when the persisted file does NOT exist; when the file exists they
return the serde parse outcome unchanged, so malformed content surfaces
as an error rather than a default. -/
theorem c4_load_behavior :
    (∀ p, LoopDetector.load_hashes false p = Except.ok [] ∧
          LoopDetector.load_hashes true p = p) ∧
    (∀ p, LoopDetector.load_prompt_history false p = Except.ok [] ∧
          LoopDetector.load_prompt_history true p = p) ∧
    (∀ p, LoopDetector.load_state_history false p = Except.ok [] ∧
          LoopDetector.load_state_history true p = p) := by
  refine ⟨fun p => ⟨?_, ?_⟩, fun p => ⟨?_, ?_⟩, fun p => ⟨?_, ?_⟩⟩ <;>
    simp [LoopDetector.load_hashes, LoopDetector.load_prompt_history,
      LoopDetector.load_state_history]

/-! ## Claim C3 -/

/-- C3: `predict_context_overflow` on a textbook rising history — five
samples climbing 10%→50% at timestamps 0,60,...,240 with threshold 70 —
returns `none`, because the window is collected newest-first and never
re-reversed, making `time_span = oldest − newest = −240 ≤ 0`; the spec's
linear extrapolation (`predictOverflowSpecModel`) yields
`time_to_threshold = (70 − 50)/(40/240) = 120` seconds on the same input. -/
theorem c3_predict_overflow_failing_input :
    EnhancedMonitor.predict_context_overflow 70
      [⟨10, 0⟩, ⟨20, 60⟩, ⟨30, 120⟩, ⟨40, 180⟩, ⟨50, 240⟩] = none ∧
    EnhancedMonitor.predictOverflowSpecModel 70
      [⟨10, 0⟩, ⟨20, 60⟩, ⟨30, 120⟩, ⟨40, 180⟩, ⟨50, 240⟩] = some 120 := by
  constructor
  · simp only [EnhancedMonitor.predict_context_overflow]
    norm_num
  · simp only [EnhancedMonitor.predictOverflowSpecModel]
    norm_num

/-! ## Claim C7 -/

theorem sqrt_div_gt_fifth_iff (v m : ℚ) :
    Real.sqrt (v : ℝ) / (m : ℝ) > 1/5 ↔ (0 < m ∧ 25 * v > m ^ 2) := by
  constructor
  · intro h
    have hm : 0 < (m : ℝ) := by
      rcases lt_trichotomy (0 : ℝ) (m : ℝ) with hp | hz | hn
      · exact hp
      · rw [← hz, div_zero] at h
        norm_num at h
      · have : Real.sqrt (v : ℝ) / (m : ℝ) ≤ 0 :=
          div_nonpos_of_nonneg_of_nonpos (Real.sqrt_nonneg _) hn.le
        linarith
    have hmq : 0 < m := by exact_mod_cast hm
    refine ⟨hmq, ?_⟩
    have h5 : (m : ℝ) / 5 < Real.sqrt (v : ℝ) := by
      rw [gt_iff_lt, lt_div_iff₀ hm] at h
      linarith
    have hsq : ((m : ℝ) / 5) ^ 2 < (v : ℝ) :=
      (Real.lt_sqrt (by positivity)).mp h5
    have : (m : ℝ) ^ 2 < 25 * (v : ℝ) := by nlinarith
    exact_mod_cast this
  · rintro ⟨hmq, hlt⟩
    have hm : 0 < (m : ℝ) := by exact_mod_cast hmq
    have hltr : (m : ℝ) ^ 2 < 25 * (v : ℝ) := by exact_mod_cast hlt
    have hsq : ((m : ℝ) / 5) ^ 2 < (v : ℝ) := by nlinarith
    have h5 : (m : ℝ) / 5 < Real.sqrt (v : ℝ) :=
      (Real.lt_sqrt (by positivity)).mpr hsq
    rw [gt_iff_lt, lt_div_iff₀ hm]
    linarith

/-- C7: two agents with latest contributions 0.95 and 0.10 trip the
imbalance check; three agents at 0.58/0.60/0.62 do not; and in general
`check_imbalance` is true iff at least two agents are tracked (with a
latest contribution) and the coefficient of variation
`std_dev / mean = sqrt(variance) / mean` of the latest contributions
exceeds 0.20. -/
theorem c7_check_imbalance_characterization :
    EnhancedMonitor.check_imbalance
      [("agent_a", [⟨0, 95/100, 0, 0⟩]), ("agent_b", [⟨1, 10/100, 0, 0⟩])] = true ∧
    EnhancedMonitor.check_imbalance
      [("agent_a", [⟨0, 58/100, 0, 0⟩]), ("agent_b", [⟨1, 60/100, 0, 0⟩]),
       ("agent_c", [⟨2, 62/100, 0, 0⟩])] = false ∧
    ∀ history : List (String × List EnhancedMonitor.TurnStats),
      (EnhancedMonitor.check_imbalance history = true ↔
        2 ≤ history.length ∧
        2 ≤ (EnhancedMonitor.latestContributions history).length ∧
        Real.sqrt ((EnhancedMonitor.varianceQ
            (EnhancedMonitor.latestContributions history) : ℚ) : ℝ) /
          ((EnhancedMonitor.meanQ
            (EnhancedMonitor.latestContributions history) : ℚ) : ℝ) > 1/5) := by
  refine ⟨?_, ?_, ?_⟩
  · simp only [EnhancedMonitor.check_imbalance, EnhancedMonitor.latestContributions,
      EnhancedMonitor.meanQ, EnhancedMonitor.varianceQ, List.filterMap_cons,
      List.filterMap_nil, List.getLast?_singleton, Option.map_some, List.map_cons,
      List.map_nil, List.sum_cons, List.sum_nil, List.length_cons, List.length_nil]
    norm_num
  · simp only [EnhancedMonitor.check_imbalance, EnhancedMonitor.latestContributions,
      EnhancedMonitor.meanQ, EnhancedMonitor.varianceQ, List.filterMap_cons,
      List.filterMap_nil, List.getLast?_singleton, Option.map_some, List.map_cons,
      List.map_nil, List.sum_cons, List.sum_nil, List.length_cons, List.length_nil]
    norm_num
  · intro history
    unfold EnhancedMonitor.check_imbalance
    by_cases h1 : history.length < 2
    · simp only [h1, if_true, Bool.false_eq_true, false_iff]
      rintro ⟨hc, -⟩
      omega
    · simp only [h1, if_false]
      by_cases h2 : (EnhancedMonitor.latestContributions history).length < 2
      · simp only [h2, if_true, Bool.false_eq_true, false_iff]
        rintro ⟨-, hc, -⟩
        omega
      · simp only [h2, if_false]
        rw [decide_eq_true_eq, sqrt_div_gt_fifth_iff]
        constructor
        · rintro ⟨hm, hv2⟩
          exact ⟨by omega, by omega, hm, hv2⟩
        · rintro ⟨-, -, hm, hv2⟩
          exact ⟨hm, hv2⟩

/-! ## Claim C6 -/

theorem stableInsert_perm {α : Type} (before : α → α → Bool) (a : α) (l : List α) :
    List.Perm (stableInsert before a l) (a :: l) := by
  induction l with
  | nil => simp [stableInsert]
  | cons b bs ih =>
    simp only [stableInsert]
    by_cases h : before b a = true
    · simp only [h, if_true]
      exact (ih.cons b).trans (List.Perm.swap a b bs)
    · simp [h]

theorem stableSort_perm {α : Type} (before : α → α → Bool) (l : List α) :
    List.Perm (stableSort before l) l := by
  induction l with
  | nil => simp [stableSort]
  | cons a as ih =>
    exact (stableInsert_perm before a (stableSort before as)).trans (ih.cons a)

theorem keyed_nodup_eq {β : Type} {l : List (String × β)}
    (hnd : (l.map Prod.fst).Nodup) {a : String} {b c : β}
    (hb : (a, b) ∈ l) (hc : (a, c) ∈ l) : b = c := by
  induction l with
  | nil => simp at hb
  | cons p rest ih =>
    have hnd2 := hnd
    rw [List.map_cons, List.nodup_cons] at hnd2
    rcases List.mem_cons.mp hb with hb1 | hb2 <;> rcases List.mem_cons.mp hc with hc1 | hc2
    · rw [← hb1] at hc1
      exact (congrArg Prod.snd hc1.symm)
    · exfalso
      apply hnd2.1
      rw [← hb1]
      exact List.mem_map.mpr ⟨(a, c), hc2, rfl⟩
    · exfalso
      apply hnd2.1
      rw [← hc1]
      exact List.mem_map.mpr ⟨(a, b), hb2, rfl⟩
    · exact ih hnd2.2 hb2 hc2

theorem agentContributions_keys_nodup (m : EnhancedMonitor.MonitorRM)
    (hnd : (m.agent_usage_history.map Prod.fst).Nodup) :
    ((EnhancedMonitor.agentContributions m).map Prod.fst).Nodup := by
  unfold EnhancedMonitor.agentContributions
  have hperm := stableSort_perm (fun a b => decide (b.2 < a.2))
    (m.agent_usage_history.map (fun p => (p.1, EnhancedMonitor.avgContribution p.2)))
  have hkeys := hperm.map Prod.fst
  rw [List.Perm.nodup_iff hkeys]
  rw [List.map_map]
  exact hnd

theorem agentContributions_length (m : EnhancedMonitor.MonitorRM) :
    (EnhancedMonitor.agentContributions m).length = m.agent_usage_history.length := by
  unfold EnhancedMonitor.agentContributions
  rw [(stableSort_perm _ _).length_eq, List.length_map]

/-- C6 counterexample: at `total = 10` the code stores
`safety_reserve = (10 * 0.15) as u32 = 1` (truncation of 1.5, matching the
exact f64 computation), while `round(0.15 * 10) = round(1.5) = 2`. -/
theorem c6_safety_reserve_counterexample :
    (EnhancedMonitor.reallocate_budget EnhancedMonitor.exampleMonitorRM 10).1.safety_reserve
      = 1 ∧
    round ((15 : ℚ) / 100 * 10) = 2 := by
  constructor
  · rfl
  · rw [show (15 : ℚ) / 100 * 10 = 3 / 2 by norm_num, round_eq]
    norm_num

/-- C6 (amended): for every total and non-empty tracked-agent map (with the
`HashMap`-guaranteed distinct keys, and the constructor-established
`min_per_agent = 10000`), the returned `safety_reserve` is
`⌊0.15 * total⌋` (the `as u32` cast truncates, it does not round), the
invariant `per_agent * agent_count + safety_reserve ≤ total` holds
exactly, and in the stored `SwarmBudget` every agent in `reduced_agents`
is allocated at least `min_per_agent`. -/
theorem c6_reallocate_budget (m : EnhancedMonitor.MonitorRM) (total : ℕ)
    (hne : m.agent_usage_history ≠ [])
    (hnd : (m.agent_usage_history.map Prod.fst).Nodup)
    (hmin : m.budget_min_per_agent = 10000) :
    (EnhancedMonitor.reallocate_budget m total).1.safety_reserve = 3 * total / 20 ∧
    (EnhancedMonitor.reallocate_budget m total).1.per_agent *
        m.agent_usage_history.length +
      (EnhancedMonitor.reallocate_budget m total).1.safety_reserve ≤ total ∧
    ∀ p ∈ (EnhancedMonitor.reallocate_budget m total).2.allocated,
      p.1 ∈ EnhancedMonitor.reducedAgents m →
      (EnhancedMonitor.reallocate_budget m total).2.min_per_agent ≤ p.2 := by
  refine ⟨rfl, ?_, ?_⟩
  · have hcne : EnhancedMonitor.agentContributions m ≠ [] := by
      intro h
      apply hne
      have := agentContributions_length m
      rw [h] at this
      simp only [List.length_nil] at this
      exact List.length_eq_zero.mp this.symm
    show EnhancedMonitor.perAgentShare m total * m.agent_usage_history.length +
      EnhancedMonitor.safetyReserve total ≤ total
    unfold EnhancedMonitor.perAgentShare
    rw [if_pos hcne, agentContributions_length m]
    have hdm := Nat.div_mul_le_self (total - EnhancedMonitor.safetyReserve total)
      m.agent_usage_history.length
    have hrle : EnhancedMonitor.safetyReserve total ≤ total := by
      unfold EnhancedMonitor.safetyReserve
      omega
    omega
  · intro p hp hpred
    show 10000 ≤ p.2
    simp only [EnhancedMonitor.reallocate_budget, List.mem_map] at hp
    obtain ⟨q, hq, hpq⟩ := hp
    have hp1 : p.1 = q.1 := by rw [← hpq]
    rw [hp1] at hpred
    have hexists : ∃ q2, q2 ∈ EnhancedMonitor.agentContributions m ∧
        (q2.2 < m.pruning_contribution_threshold ∧ m.auto_reduce_low_contrib = true) ∧
        q2.1 = q.1 := by
      unfold EnhancedMonitor.reducedAgents at hpred
      obtain ⟨q2, hq2, hval⟩ := List.mem_filterMap.mp hpred
      by_cases hcond : q2.2 < m.pruning_contribution_threshold ∧
          m.auto_reduce_low_contrib = true
      · refine ⟨q2, hq2, hcond, ?_⟩
        rw [if_pos hcond] at hval
        exact Option.some_injective _ hval
      · rw [if_neg hcond] at hval
        exact absurd hval (by simp)
    obtain ⟨q2, hq2mem, hq2cond, hq2key⟩ := hexists
    have hqeq : q2.2 = q.2 := by
      have hk := agentContributions_keys_nodup m hnd
      have hq2pair : (q.1, q2.2) ∈ EnhancedMonitor.agentContributions m := by
        rw [← hq2key]
        exact hq2mem
      have hqpair : (q.1, q.2) ∈ EnhancedMonitor.agentContributions m := hq
      exact keyed_nodup_eq hk hq2pair hqpair
    have hcond : q.1 ∈ EnhancedMonitor.reducedAgents m ∧
        q.2 < m.pruning_contribution_threshold := by
      refine ⟨hpred, ?_⟩
      rw [← hqeq]
      exact hq2cond.1
    have hp2 : p.2 = max (EnhancedMonitor.reducedPerAgent m total)
        m.budget_min_per_agent := by
      rw [← hpq]
      simp only [if_pos hcond]
    rw [hp2, hmin]
    exact le_max_right _ _

/-- C6 witness: the amended claim instantiated at a concrete two-agent
monitor (distinct keys, min_per_agent 10000) and total 100000. -/
theorem c6_reallocate_budget_witness :
    (EnhancedMonitor.reallocate_budget EnhancedMonitor.exampleMonitorRM 100000).1.safety_reserve
        = 3 * 100000 / 20 ∧
    (EnhancedMonitor.reallocate_budget EnhancedMonitor.exampleMonitorRM 100000).1.per_agent *
        EnhancedMonitor.exampleMonitorRM.agent_usage_history.length +
      (EnhancedMonitor.reallocate_budget EnhancedMonitor.exampleMonitorRM 100000).1.safety_reserve
        ≤ 100000 ∧
    ∀ p ∈ (EnhancedMonitor.reallocate_budget EnhancedMonitor.exampleMonitorRM 100000).2.allocated,
      p.1 ∈ EnhancedMonitor.reducedAgents EnhancedMonitor.exampleMonitorRM →
      (EnhancedMonitor.reallocate_budget EnhancedMonitor.exampleMonitorRM 100000).2.min_per_agent
        ≤ p.2 :=
  c6_reallocate_budget EnhancedMonitor.exampleMonitorRM 100000
    (by decide) (by decide) rfl

/-! ## Claim C5 -/

theorem tail_get? {α : Type} (l : List α) (n : ℕ) : l.tail.get? n = l.get? (n + 1) := by
  cases l <;> simp [List.get?]

theorem stepTwo_get? {α : Type} (l : List α) (i : ℕ) :
    (LoopDetector.stepTwo l).get? i = l.get? (2 * i) := by
  induction l using LoopDetector.stepTwo.induct generalizing i with
  | case1 => simp [LoopDetector.stepTwo]
  | case2 a =>
    match i with
    | 0 => simp [LoopDetector.stepTwo]
    | j + 1 => simp [LoopDetector.stepTwo, Nat.mul_add]
  | case3 a b rest ih =>
    match i with
    | 0 => simp [LoopDetector.stepTwo]
    | j + 1 =>
      have h2 : 2 * (j + 1) = 2 * j + 1 + 1 := by omega
      simp only [LoopDetector.stepTwo, h2, List.get?]
      simpa using ih j

theorem stepTwo_length {α : Type} (l : List α) :
    (LoopDetector.stepTwo l).length = (l.length + 1) / 2 := by
  induction l using LoopDetector.stepTwo.induct with
  | case1 => simp [LoopDetector.stepTwo]
  | case2 a => simp [LoopDetector.stepTwo]
  | case3 a b rest ih =>
    simp only [LoopDetector.stepTwo, List.length_cons, ih]
    omega

theorem dedup_length_eq_one {l : List String} :
    l.dedup.length = 1 ↔ ∃ a, l ≠ [] ∧ ∀ x ∈ l, x = a := by
  constructor
  · intro h
    obtain ⟨a, ha⟩ := List.length_eq_one.mp h
    refine ⟨a, ?_, ?_⟩
    · intro hnil
      rw [hnil] at ha
      simp at ha
    · intro x hx
      have : x ∈ l.dedup := List.mem_dedup.mpr hx
      rw [ha] at this
      simpa using this
  · rintro ⟨a, hne, hall⟩
    have hmem : a ∈ l := by
      cases l with
      | nil => exact absurd rfl hne
      | cons c rest => exact (hall c (by simp)) ▸ List.mem_cons_self c rest
    have hmemd : a ∈ l.dedup := List.mem_dedup.mpr hmem
    have hge : 1 ≤ l.dedup.length := by
      cases hd : l.dedup with
      | nil => rw [hd] at hmemd; simp at hmemd
      | cons x t => simp
    have hle : l.dedup.length ≤ 1 := by
      cases hd : l.dedup with
      | nil => simp
      | cons x t =>
        cases t with
        | nil => simp
        | cons y t2 =>
          exfalso
          have hnd : (x :: y :: t2).Nodup := hd ▸ l.nodup_dedup
          have hx : x = a := hall x (List.mem_dedup.mp (hd ▸ List.mem_cons_self x (y :: t2)))
          have hy : y = a := hall y (List.mem_dedup.mp (hd ▸ List.mem_cons_of_mem x
            (List.mem_cons_self y t2)))
          have : x ∉ y :: t2 := (List.nodup_cons.mp hnd).1
          exact this (by rw [hx, hy]; exact List.mem_cons_self a t2)
    omega

theorem oscillation_window_iff (th : ℕ) (hth : 1 ≤ th) (w : List String)
    (hw : w.length = th * 2) :
    ((LoopDetector.stepTwo w).dedup.length = 1 ∧
      (LoopDetector.stepTwo w.tail).dedup.length = 1 ∧
      (LoopDetector.stepTwo w).head? ≠ (LoopDetector.stepTwo w.tail).head?) ↔
    alternatesTwoStates w := by
  have hlen1 : (LoopDetector.stepTwo w).length = th := by
    rw [stepTwo_length, hw]; omega
  have hlen2 : (LoopDetector.stepTwo w.tail).length = th := by
    rw [stepTwo_length, List.length_tail, hw]; omega
  constructor
  · rintro ⟨h1, h2, hne⟩
    obtain ⟨a, -, ha⟩ := dedup_length_eq_one.mp h1
    obtain ⟨b, -, hb⟩ := dedup_length_eq_one.mp h2
    have hha : (LoopDetector.stepTwo w).head? = some a := by
      cases hsw : LoopDetector.stepTwo w with
      | nil => rw [hsw] at hlen1; simp at hlen1; omega
      | cons c rest =>
        have : c = a := ha c (by rw [hsw]; simp)
        simp [this]
    have hhb : (LoopDetector.stepTwo w.tail).head? = some b := by
      cases hsw : LoopDetector.stepTwo w.tail with
      | nil => rw [hsw] at hlen2; simp at hlen2; omega
      | cons c rest =>
        have : c = b := hb c (by rw [hsw]; simp)
        simp [this]
    have hab : a ≠ b := by
      intro h
      rw [hha, hhb, h] at hne
      exact hne rfl
    refine ⟨a, b, hab, fun i hi => ?_⟩
    rcases Nat.even_or_odd i with he | ho
    · obtain ⟨k, hk⟩ := he
      have hik : i = 2 * k := by omega
      have hklt : k < (LoopDetector.stepTwo w).length := by rw [hlen1]; omega
      have hx : (LoopDetector.stepTwo w).get? k =
          some ((LoopDetector.stepTwo w).get ⟨k, hklt⟩) := List.get?_eq_get hklt
      have hxa : (LoopDetector.stepTwo w).get ⟨k, hklt⟩ = a :=
        ha _ (List.get?_mem hx)
      have hwi : w.get? i = some ((LoopDetector.stepTwo w).get ⟨k, hklt⟩) := by
        rw [hik, ← stepTwo_get?, hx]
      rw [hwi, hxa]
      have hmod : i % 2 = 0 := by omega
      simp [hmod]
    · obtain ⟨k, hk⟩ := ho
      have hklt : k < (LoopDetector.stepTwo w.tail).length := by rw [hlen2]; omega
      have hx : (LoopDetector.stepTwo w.tail).get? k =
          some ((LoopDetector.stepTwo w.tail).get ⟨k, hklt⟩) := List.get?_eq_get hklt
      have hxb : (LoopDetector.stepTwo w.tail).get ⟨k, hklt⟩ = b :=
        hb _ (List.get?_mem hx)
      have htl : w.tail.get? (2 * k) =
          some ((LoopDetector.stepTwo w.tail).get ⟨k, hklt⟩) := by
        rw [← stepTwo_get?, hx]
      have hwi : w.get? i = some ((LoopDetector.stepTwo w.tail).get ⟨k, hklt⟩) := by
        rw [show i = 2 * k + 1 by omega, ← tail_get?]
        exact htl
      rw [hwi, hxb]
      have hmod : i % 2 = 1 := by omega
      simp [hmod]
  · rintro ⟨a, b, hab, halt⟩
    have hmema : ∀ x ∈ LoopDetector.stepTwo w, x = a := by
      intro x hx
      obtain ⟨k, hk⟩ := List.get?_of_mem hx
      have hw2 : w.get? (2 * k) = some x := by rw [← stepTwo_get?, hk]
      have h2k : 2 * k < w.length := (List.get?_eq_some.mp hw2).1
      have hv := halt (2 * k) h2k
      rw [hw2] at hv
      have hmod : 2 * k % 2 = 0 := by omega
      simp [hmod] at hv
      exact hv
    have hmemb : ∀ x ∈ LoopDetector.stepTwo w.tail, x = b := by
      intro x hx
      obtain ⟨k, hk⟩ := List.get?_of_mem hx
      have hw2 : w.tail.get? (2 * k) = some x := by rw [← stepTwo_get?, hk]
      have hw3 : w.get? (2 * k + 1) = some x := by rw [← tail_get?]; exact hw2
      have h2k : 2 * k + 1 < w.length := (List.get?_eq_some.mp hw3).1
      have hv := halt (2 * k + 1) h2k
      rw [hw3] at hv
      have hmod : (2 * k + 1) % 2 = 1 := by omega
      simp [hmod] at hv
      exact hv
    have hne1 : LoopDetector.stepTwo w ≠ [] := by
      intro h
      rw [h] at hlen1
      simp at hlen1
      omega
    have hne2 : LoopDetector.stepTwo w.tail ≠ [] := by
      intro h
      rw [h] at hlen2
      simp at hlen2
      omega
    refine ⟨dedup_length_eq_one.mpr ⟨a, hne1, hmema⟩,
            dedup_length_eq_one.mpr ⟨b, hne2, hmemb⟩, ?_⟩
    have hha : (LoopDetector.stepTwo w).head? = some a := by
      rw [← List.get?_zero, stepTwo_get?]
      have h0 : 0 < w.length := by omega
      have hv := halt 0 h0
      simpa using hv
    have hhb : (LoopDetector.stepTwo w.tail).head? = some b := by
      rw [← List.get?_zero, stepTwo_get?, Nat.mul_zero, tail_get?]
      have h1 : 1 < w.length := by omega
      have hv := halt 1 h1
      simpa using hv
    rw [hha, hhb]
    simp [hab]

/-- C5: with threshold 3 and empty initial history, feeding A,B,A,B,A,B
returns the StateOscillation detection exactly on the sixth call, while
A,B,C,A,B,C never fires; and in general `check_state_oscillation` fires
iff, in the most recent window of length `2 * threshold` of the updated
history, the even-indexed positions are constant, the odd-indexed
positions are constant, and the two constants differ. -/
theorem c5_state_oscillation :
    (LoopDetector.iterOsc 3 "a" [] ["A", "B", "A", "B", "A", "B"]).map Option.isSome =
      [false, false, false, false, false, true] ∧
    (LoopDetector.iterOsc 3 "a" [] ["A", "B", "A", "B", "A", "B"]).get? 5 =
      some (some { detection_type := .StateOscillation, agent_id := "a",
                   loop_count := 3, prompt_hash := "" }) ∧
    (LoopDetector.iterOsc 3 "a" [] ["A", "B", "C", "A", "B", "C"]) =
      [none, none, none, none, none, none] ∧
    ∀ (th : ℕ) (hist : List String) (agent state : String), 1 ≤ th →
      ((LoopDetector.check_state_oscillation th hist agent state).1.isSome = true ↔
        (th * 2 ≤ (LoopDetector.pushedHistory hist state).length ∧
          alternatesTwoStates ((LoopDetector.pushedHistory hist state).drop
            ((LoopDetector.pushedHistory hist state).length - th * 2)))) := by
  refine ⟨by decide, by decide, by decide, ?_⟩
  intro th hist agent state hth
  have hwlen : th * 2 ≤ (LoopDetector.pushedHistory hist state).length →
      ((LoopDetector.pushedHistory hist state).drop
        ((LoopDetector.pushedHistory hist state).length - th * 2)).length = th * 2 := by
    intro h
    rw [List.length_drop]
    omega
  simp only [LoopDetector.check_state_oscillation]
  split_ifs with h1 h2 h3
  · simp only [Option.isSome_some, true_iff]
    exact ⟨h1, (oscillation_window_iff th hth _ (hwlen h1)).mp ⟨h2.1, h2.2, h3⟩⟩
  · simp only [Option.isSome_none, Bool.false_eq_true, false_iff, not_and]
    intro _ halt
    exact absurd ((oscillation_window_iff th hth _ (hwlen h1)).mpr halt).2.2 (by
      simpa using h3)
  · simp only [Option.isSome_none, Bool.false_eq_true, false_iff, not_and]
    intro _ halt
    exact absurd ⟨((oscillation_window_iff th hth _ (hwlen h1)).mpr halt).1,
      ((oscillation_window_iff th hth _ (hwlen h1)).mpr halt).2.1⟩ h2
  · simp only [Option.isSome_none, Bool.false_eq_true, false_iff, not_and]
    intro hc
    exact absurd hc h1

/-- C5 witness: a concrete alternating window A,B,A,B,A,B makes the check
fire (conclusion instantiated through the general equivalence). -/
theorem c5_state_oscillation_witness :
    (LoopDetector.check_state_oscillation 3 ["A", "B", "A", "B", "A"] "a" "B").1.isSome
      = true :=
  (c5_state_oscillation.2.2.2 3 ["A", "B", "A", "B", "A"] "a" "B" (by decide)).mpr
    ⟨by decide, ⟨"A", "B", by decide, by decide⟩⟩

/-! ## Claim C10 -/

theorem check_exact_loop_stateHistory (threshold : ℕ) (st : DetectorState)
    (agent_id prompt : String) :
    (LoopDetector.check_exact_loop threshold st agent_id prompt).2.stateHistory =
      st.stateHistory := by
  simp only [LoopDetector.check_exact_loop]
  split_ifs <;> rfl

theorem check_exact_loop_fires_exact (threshold : ℕ) (st : DetectorState)
    (agent_id prompt : String) (d : LoopDetection)
    (h : (LoopDetector.check_exact_loop threshold st agent_id prompt).1 = some d) :
    d.detection_type = .ExactLoop := by
  simp only [LoopDetector.check_exact_loop] at h
  split_ifs at h
  cases Option.some_injective _ h
  rfl

theorem check_semantic_loop_fires_semantic (sim : String → String → ℚ) (threshold : ℕ)
    (st : DetectorState) (agent_id prompt : String) (d : LoopDetection)
    (h : LoopDetector.check_semantic_loop sim threshold st agent_id prompt = some d) :
    d.detection_type = .SemanticLoop := by
  simp only [LoopDetector.check_semantic_loop] at h
  split_ifs at h
  cases Option.some_injective _ h
  rfl

theorem check_state_oscillation_fires_oscillation (threshold : ℕ) (hist : List String)
    (agent_id state : String) (d : LoopDetection)
    (h : (LoopDetector.check_state_oscillation threshold hist agent_id state).1 = some d) :
    d.detection_type = .StateOscillation := by
  simp only [LoopDetector.check_state_oscillation] at h
  split_ifs at h
  cases Option.some_injective _ h
  rfl

theorem check_state_oscillation_snd (threshold : ℕ) (hist : List String)
    (agent_id state : String) :
    (LoopDetector.check_state_oscillation threshold hist agent_id state).2 =
      LoopDetector.pushedHistory hist state := by
  simp only [LoopDetector.check_state_oscillation]
  split_ifs <;> rfl

theorem pushedHistory_no_trunc (l : List String) (s : String) (h : l.length + 1 ≤ 20) :
    LoopDetector.pushedHistory l s = l ++ [s] := by
  unfold LoopDetector.pushedHistory
  rw [if_neg]
  simp only [List.length_append, List.length_cons, List.length_nil]
  omega

/-- The semantic check cannot fire while fewer than `threshold` prompts
are recorded: the similarity count is capped by the history length. -/
theorem check_semantic_loop_short_history (sim : String → String → ℚ) (threshold : ℕ)
    (st : DetectorState) (agent_id prompt : String)
    (h : st.promptHistory.length < threshold) :
    LoopDetector.check_semantic_loop sim threshold st agent_id prompt = none := by
  unfold LoopDetector.check_semantic_loop
  rw [if_neg]
  intro hc
  have h1 : ((st.promptHistory.reverse.take threshold).filter
      (fun h2 => decide (sim prompt h2 > 85/100))).length ≤
      (st.promptHistory.reverse.take threshold).length := List.length_filter_le _ _
  have h2 : (st.promptHistory.reverse.take threshold).length ≤
      st.promptHistory.length := by
    rw [List.length_take, List.length_reverse]
    omega
  omega

/-- C10 (amended): `check_all_loops` always appends the state once; the
`check_state_oscillation` step appends it a second time, but that step
runs only when neither the exact-loop nor the semantic-loop check fired.
So (below the history caps) a call returning `None` or a
`StateOscillation` detection leaves the state history extended by TWO
consecutive copies of the state, while a call returning an `ExactLoop` or
`SemanticLoop` detection extends it by ONE copy. -/
theorem c10_check_all_loops_state_appends (sim : String → String → ℚ)
    (exactTh semTh oscTh : ℕ) (st : DetectorState) (agent_id prompt state : String)
    (hcap : st.stateHistory.length + 2 ≤ 20) :
    ((LoopDetector.check_all_loops sim exactTh semTh oscTh st agent_id prompt state).1
        = none →
      (LoopDetector.check_all_loops sim exactTh semTh oscTh st agent_id prompt
        state).2.stateHistory = st.stateHistory ++ [state, state]) ∧
    (∀ d, (LoopDetector.check_all_loops sim exactTh semTh oscTh st agent_id prompt
        state).1 = some d →
      d.detection_type = .StateOscillation →
      (LoopDetector.check_all_loops sim exactTh semTh oscTh st agent_id prompt
        state).2.stateHistory = st.stateHistory ++ [state, state]) ∧
    (∀ d, (LoopDetector.check_all_loops sim exactTh semTh oscTh st agent_id prompt
        state).1 = some d →
      d.detection_type ≠ .StateOscillation →
      (LoopDetector.check_all_loops sim exactTh semTh oscTh st agent_id prompt
        state).2.stateHistory = st.stateHistory ++ [state]) := by
  have hpush1 : LoopDetector.pushedHistory st.stateHistory state =
      st.stateHistory ++ [state] := pushedHistory_no_trunc _ _ (by omega)
  have hpush2 : LoopDetector.pushedHistory (st.stateHistory ++ [state]) state =
      st.stateHistory ++ [state] ++ [state] := by
    apply pushedHistory_no_trunc
    simp only [List.length_append, List.length_cons, List.length_nil]
    omega
  unfold LoopDetector.check_all_loops
  rcases hx : (LoopDetector.check_exact_loop exactTh
      { st with
        promptHistory := if (st.promptHistory ++ [prompt]).length > 50 then
          (st.promptHistory ++ [prompt]).tail else st.promptHistory ++ [prompt],
        stateHistory := LoopDetector.pushedHistory st.stateHistory state }
      agent_id prompt).1 with _ | d1
  · rcases hy : LoopDetector.check_semantic_loop sim semTh
        (LoopDetector.check_exact_loop exactTh
          { st with
            promptHistory := if (st.promptHistory ++ [prompt]).length > 50 then
              (st.promptHistory ++ [prompt]).tail else st.promptHistory ++ [prompt],
            stateHistory := LoopDetector.pushedHistory st.stateHistory state }
          agent_id prompt).2 agent_id prompt with _ | d2
    · simp only [hx, hy]
      have hsh := check_exact_loop_stateHistory exactTh
        { st with
          promptHistory := if (st.promptHistory ++ [prompt]).length > 50 then
            (st.promptHistory ++ [prompt]).tail else st.promptHistory ++ [prompt],
          stateHistory := LoopDetector.pushedHistory st.stateHistory state }
        agent_id prompt
      refine ⟨fun _ => ?_, fun d _ _ => ?_, fun d hd hdt => ?_⟩
      · rw [check_state_oscillation_snd, hsh]
        simp only [hsh]
        rw [hpush1, hpush2]
        simp
      · rw [check_state_oscillation_snd, hsh]
        simp only [hsh]
        rw [hpush1, hpush2]
        simp
      · exfalso
        exact hdt (check_state_oscillation_fires_oscillation _ _ _ _ _ hd)
    · simp only [hx, hy]
      have hsh := check_exact_loop_stateHistory exactTh
        { st with
          promptHistory := if (st.promptHistory ++ [prompt]).length > 50 then
            (st.promptHistory ++ [prompt]).tail else st.promptHistory ++ [prompt],
          stateHistory := LoopDetector.pushedHistory st.stateHistory state }
        agent_id prompt
      refine ⟨fun hc => by simp at hc, fun d hd hdt => ?_, fun d hd hdt => ?_⟩
      · exfalso
        cases Option.some_injective _ hd
        rw [check_semantic_loop_fires_semantic _ _ _ _ _ _ hy] at hdt
        simp at hdt
      · rw [hsh, hpush1]
  · simp only [hx]
    have hsh := check_exact_loop_stateHistory exactTh
      { st with
        promptHistory := if (st.promptHistory ++ [prompt]).length > 50 then
          (st.promptHistory ++ [prompt]).tail else st.promptHistory ++ [prompt],
        stateHistory := LoopDetector.pushedHistory st.stateHistory state }
      agent_id prompt
    refine ⟨fun hc => by simp at hc, fun d hd hdt => ?_, fun d hd hdt => ?_⟩
    · exfalso
      cases Option.some_injective _ hd
      rw [check_exact_loop_fires_exact _ _ _ _ _ hx] at hdt
      simp at hdt
    · rw [hsh, hpush1]

/-- C10 counterexample: with default thresholds (exact 3, semantic 5,
oscillation 3) and the Jaccard fallback similarity, three identical
`check_all_loops` calls leave FIVE state entries, not `2 * 3 = 6`: the
third call fires the exact-loop check and returns before the oscillation
step, appending its state only once. -/
theorem c10_check_all_loops_counterexample :
    (LoopDetector.runAllCalls LoopDetector.jaccard_similarity 3 5 3 "a" "loop task"
      "working" DetectorState.empty 3).stateHistory =
      ["working", "working", "working", "working", "working"] ∧
    ¬ (LoopDetector.runAllCalls LoopDetector.jaccard_similarity 3 5 3 "a" "loop task"
      "working" DetectorState.empty 3).stateHistory.length = 2 * 3 := by
  have hrun : (LoopDetector.runAllCalls LoopDetector.jaccard_similarity 3 5 3 "a"
      "loop task" "working" DetectorState.empty 3).stateHistory =
      ["working", "working", "working", "working", "working"] := by
    simp [LoopDetector.runAllCalls, LoopDetector.check_all_loops,
      LoopDetector.check_exact_loop, check_semantic_loop_short_history,
      LoopDetector.check_state_oscillation, LoopDetector.pushedHistory,
      lookupD, insertA, DetectorState.empty, LoopDetector.stepTwo]
  refine ⟨hrun, ?_⟩
  rw [hrun]
  simp

/-- C10 witness: a first call on empty state (no detection fires) ends
with the state history `[s, s]` — two consecutive copies. -/
theorem c10_check_all_loops_state_appends_witness :
    (LoopDetector.check_all_loops LoopDetector.jaccard_similarity 3 5 3
      DetectorState.empty "a" "analyze" "working").2.stateHistory =
      DetectorState.empty.stateHistory ++ ["working", "working"] :=
  (c10_check_all_loops_state_appends LoopDetector.jaccard_similarity 3 5 3
    DetectorState.empty "a" "analyze" "working" (by decide)).1
    (by simp [LoopDetector.check_all_loops, LoopDetector.check_exact_loop,
      check_semantic_loop_short_history, LoopDetector.check_state_oscillation,
      LoopDetector.pushedHistory, lookupD, insertA, DetectorState.empty,
      LoopDetector.stepTwo])

/-! ## Claim C8 -/

theorem count_filter_bool {α : Type} [DecidableEq α] (p : α → Bool) (l : List α) (x : α) :
    (l.filter p).count x = if p x then l.count x else 0 := by
  by_cases h : p x
  · rw [if_pos h]
    exact List.count_filter h
  · rw [if_neg h, List.count_eq_zero]
    intro hm
    exact h ((List.mem_filter.mp hm).2)

theorem count_flatten_groupActions (ord : List String) (low : List TrajectoryEntry)
    (x : TrajectoryEntry) :
    (((TrajectoryCompressor.groupActions ord low).map Prod.snd).flatten).count x =
      ord.count x.action * low.count x := by
  induction ord with
  | nil => simp [TrajectoryCompressor.groupActions]
  | cons a rest ih =>
    simp only [TrajectoryCompressor.groupActions, List.map_cons, List.map_map,
      List.flatten_cons] at ih ⊢
    rw [List.count_append, ih, count_filter_bool, List.count_cons]
    by_cases h : x.action = a
    · simp only [h]
      simp
      ring
    · have hb : (a == x.action) = false := by simp [Ne.symm h]
      simp [h, hb]

theorem classify_mkLowEntry (a : String)
    (hs : TrajectoryCompressor.is_superseded (mkLowEntry a) = false) :
    TrajectoryCompressor.classify TrajectoryCompressor.Config.default (mkLowEntry a) =
      .lowImpact := by
  have hA : (decide ((mkLowEntry a).impact_score ≥
      TrajectoryCompressor.Config.default.preserve_threshold) ||
      (mkLowEntry a).succeeded) = false := by
    simp only [mkLowEntry, TrajectoryCompressor.Config.default, Bool.or_false]
    norm_num
  have hB : (TrajectoryCompressor.is_superseded (mkLowEntry a) ||
      TrajectoryCompressor.is_redundant TrajectoryCompressor.Config.default
        (mkLowEntry a)) = false := by
    rw [hs]
    simp [TrajectoryCompressor.is_redundant, mkLowEntry]
  unfold TrajectoryCompressor.classify
  rw [if_neg (by simp [hA]), if_neg (by simp [hB])]

/-- C8 counterexample: on a trajectory whose low-impact entries form
eleven two-entry groups of equal count, two valid hash-map iteration
orders (both permutations of the distinct actions, as `HashMap`
guarantees for some run) drive `truncate(10)` to keep DIFFERENT groups,
so two runs of `compress_trajectory` on the same input and configuration
produce different summarized partitions. -/
theorem c8_determinism_counterexample :
    TrajectoryCompressor.lowEntries TrajectoryCompressor.Config.default exampleLog11 =
      exampleLog11.entries ∧
    exampleActions.Perm
      ((TrajectoryCompressor.lowEntries TrajectoryCompressor.Config.default
        exampleLog11).map (fun e => e.action)).dedup ∧
    ("g11" :: exampleActions.take 10).Perm
      ((TrajectoryCompressor.lowEntries TrajectoryCompressor.Config.default
        exampleLog11).map (fun e => e.action)).dedup ∧
    (TrajectoryCompressor.compress_trajectory exampleActions
        TrajectoryCompressor.Config.default exampleLog11).summarized ≠
      (TrajectoryCompressor.compress_trajectory ("g11" :: exampleActions.take 10)
        TrajectoryCompressor.Config.default exampleLog11).summarized := by
  have hlow : TrajectoryCompressor.lowEntries TrajectoryCompressor.Config.default
      exampleLog11 = exampleLog11.entries := by
    unfold TrajectoryCompressor.lowEntries
    apply List.filter_eq_self.mpr
    intro e he
    simp only [exampleLog11, List.mem_flatMap, List.mem_cons, List.not_mem_nil,
      or_false] at he
    obtain ⟨a, ha, he2⟩ := he
    have he3 : e = mkLowEntry a := by
      rcases he2 with h | h
      · exact h
      · exact h
    have hsup : TrajectoryCompressor.is_superseded (mkLowEntry a) = false := by
      revert ha
      have : ∀ a2 ∈ exampleActions,
          TrajectoryCompressor.is_superseded (mkLowEntry a2) = false := by decide
      exact this a
    rw [he3, classify_mkLowEntry a hsup]
    simp
  have hded : ((exampleLog11.entries).map (fun e => e.action)).dedup =
      exampleActions := by decide
  refine ⟨hlow, ?_, ?_, ?_⟩
  · rw [hlow, hded]
  · rw [hlow, hded]
    have hsplit : exampleActions = exampleActions.take 10 ++ ["g11"] := by decide
    conv_rhs => rw [hsplit]
    exact (List.perm_append_singleton "g11" (exampleActions.take 10)).symm
  · show TrajectoryCompressor.group_and_summarize exampleActions
        (TrajectoryCompressor.lowEntries TrajectoryCompressor.Config.default
          exampleLog11) ≠
      TrajectoryCompressor.group_and_summarize ("g11" :: exampleActions.take 10)
        (TrajectoryCompressor.lowEntries TrajectoryCompressor.Config.default
          exampleLog11)
    rw [hlow]
    decide

/-- C8 (amended): for every configuration, trajectory and valid hash-map
iteration order (a permutation of the distinct low-impact actions):
every entry occurrence lands in exactly one of preserved / dropped /
low-impact; the per-action groups partition the low-impact entries, each
entry belonging to exactly one group; the preserved list never depends on
the iteration order; and as long as at most 10 groups are summarized the
summarized output is iteration-order independent up to permutation — the
counterexample shows the 10-group truncation breaks this beyond that
bound, so `compress_trajectory` is deterministic only up to the choice of
tied groups at the truncation boundary. -/
theorem c8_compression_partition
    (cfg : TrajectoryCompressor.Config) (log : TrajectoryLog) (ord : List String)
    (hord : ord.Perm ((TrajectoryCompressor.lowEntries cfg log).map
      (fun e => e.action)).dedup) :
    (∀ e, log.entries.count e =
      (TrajectoryCompressor.compress_trajectory ord cfg log).preserved.count e +
      (log.entries.filter
        (fun x => TrajectoryCompressor.classify cfg x = .dropped)).count e +
      (TrajectoryCompressor.lowEntries cfg log).count e) ∧
    (((TrajectoryCompressor.groupActions ord
        (TrajectoryCompressor.lowEntries cfg log)).map Prod.snd).flatten).Perm
      (TrajectoryCompressor.lowEntries cfg log) ∧
    (∀ e g1 g2,
      g1 ∈ TrajectoryCompressor.groupActions ord
        (TrajectoryCompressor.lowEntries cfg log) →
      g2 ∈ TrajectoryCompressor.groupActions ord
        (TrajectoryCompressor.lowEntries cfg log) →
      e ∈ g1.2 → e ∈ g2.2 → g1 = g2) ∧
    (∀ ord2, (TrajectoryCompressor.compress_trajectory ord2 cfg log).preserved =
      (TrajectoryCompressor.compress_trajectory ord cfg log).preserved) ∧
    (∀ ord2, ord2.Perm ((TrajectoryCompressor.lowEntries cfg log).map
        (fun e => e.action)).dedup →
      ((TrajectoryCompressor.groupActions ord
        (TrajectoryCompressor.lowEntries cfg log)).filterMap
          TrajectoryCompressor.summarizeGroup).length ≤ 10 →
      ((TrajectoryCompressor.compress_trajectory ord2 cfg log).summarized).Perm
        ((TrajectoryCompressor.compress_trajectory ord cfg log).summarized)) := by
  have hnodup : ord.Nodup := (List.Perm.nodup_iff hord).mpr (List.nodup_dedup _)
  have hcover : ∀ e ∈ TrajectoryCompressor.lowEntries cfg log, e.action ∈ ord := by
    intro e he
    rw [hord.mem_iff]
    exact List.mem_dedup.mpr (List.mem_map_of_mem _ he)
  refine ⟨?_, ?_, ?_, fun ord2 => rfl, ?_⟩
  · intro e
    show log.entries.count e =
      (TrajectoryCompressor.preservedEntries cfg log).count e + _ + _
    unfold TrajectoryCompressor.preservedEntries TrajectoryCompressor.lowEntries
    rw [count_filter_bool, count_filter_bool, count_filter_bool]
    rcases hcl : TrajectoryCompressor.classify cfg e with _ | _ | _ <;> simp [hcl]
  · apply List.perm_iff_count.mpr
    intro x
    rw [count_flatten_groupActions]
    by_cases hx : x ∈ TrajectoryCompressor.lowEntries cfg log
    · rw [List.count_eq_one_of_mem hnodup (hcover x hx), one_mul]
    · rw [List.count_eq_zero.mpr hx, Nat.mul_zero]
  · intro e g1 g2 hg1 hg2 he1 he2
    obtain ⟨a1, -, hfa1⟩ := List.mem_map.mp hg1
    obtain ⟨a2, -, hfa2⟩ := List.mem_map.mp hg2
    have ha1 : e.action = a1 := by
      rw [← hfa1] at he1
      have := (List.mem_filter.mp he1).2
      simpa using this
    have ha2 : e.action = a2 := by
      rw [← hfa2] at he2
      have := (List.mem_filter.mp he2).2
      simpa using this
    rw [← hfa1, ← hfa2, ← ha1, ← ha2]
  · intro ord2 hord2 hcap
    show (TrajectoryCompressor.group_and_summarize ord2
        (TrajectoryCompressor.lowEntries cfg log)).Perm
      (TrajectoryCompressor.group_and_summarize ord
        (TrajectoryCompressor.lowEntries cfg log))
    unfold TrajectoryCompressor.group_and_summarize
    by_cases hnil : TrajectoryCompressor.lowEntries cfg log = []
    · simp [hnil]
    · rw [if_neg hnil, if_neg hnil]
      have hop : ord2.Perm ord := hord2.trans hord.symm
      have hgp : (TrajectoryCompressor.groupActions ord2
          (TrajectoryCompressor.lowEntries cfg log)).Perm
          (TrajectoryCompressor.groupActions ord
            (TrajectoryCompressor.lowEntries cfg log)) := hop.map _
      have hsp : ((TrajectoryCompressor.groupActions ord2
          (TrajectoryCompressor.lowEntries cfg log)).filterMap
            TrajectoryCompressor.summarizeGroup).Perm
          ((TrajectoryCompressor.groupActions ord
            (TrajectoryCompressor.lowEntries cfg log)).filterMap
              TrajectoryCompressor.summarizeGroup) :=
        hgp.filterMap _
      have hlen2 : ((TrajectoryCompressor.groupActions ord2
          (TrajectoryCompressor.lowEntries cfg log)).filterMap
            TrajectoryCompressor.summarizeGroup).length ≤ 10 := by
        rw [hsp.length_eq]
        exact hcap
      have hs2 := stableSort_perm
        (fun a b : SummaryGroup => decide (b.count < a.count))
        ((TrajectoryCompressor.groupActions ord2
          (TrajectoryCompressor.lowEntries cfg log)).filterMap
            TrajectoryCompressor.summarizeGroup)
      have hs1 := stableSort_perm
        (fun a b : SummaryGroup => decide (b.count < a.count))
        ((TrajectoryCompressor.groupActions ord
          (TrajectoryCompressor.lowEntries cfg log)).filterMap
            TrajectoryCompressor.summarizeGroup)
      rw [List.take_of_length_le (by rw [hs2.length_eq]; exact hlen2),
        List.take_of_length_le (by rw [hs1.length_eq]; exact hcap)]
      exact (hs2.trans hsp).trans hs1.symm

/-- C8 witness: the occurrence-count partition instantiated at the example
trajectory, the identity iteration order (the dedup of its own actions),
and one concrete entry. -/
theorem c8_compression_partition_witness :
    exampleLog11.entries.count (mkLowEntry "g01") =
      (TrajectoryCompressor.compress_trajectory
        ((TrajectoryCompressor.lowEntries TrajectoryCompressor.Config.default
          exampleLog11).map (fun e => e.action)).dedup
        TrajectoryCompressor.Config.default exampleLog11).preserved.count
          (mkLowEntry "g01") +
      (exampleLog11.entries.filter
        (fun x => TrajectoryCompressor.classify TrajectoryCompressor.Config.default x
          = .dropped)).count (mkLowEntry "g01") +
      (TrajectoryCompressor.lowEntries TrajectoryCompressor.Config.default
        exampleLog11).count (mkLowEntry "g01") :=
  (c8_compression_partition TrajectoryCompressor.Config.default exampleLog11
    ((TrajectoryCompressor.lowEntries TrajectoryCompressor.Config.default
      exampleLog11).map (fun e => e.action)).dedup (List.Perm.refl _)).1
    (mkLowEntry "g01")

/-! ## Claim C9 -/

/-- C9: the Jaccard fallback similarity is total by construction and its
value always lies in the closed interval `[0, 1]`, for every pair of
input strings including empty ones. -/
theorem c9_jaccard_similarity_bounds (prompt1 prompt2 : String) :
    0 ≤ LoopDetector.jaccard_similarity prompt1 prompt2 ∧
    LoopDetector.jaccard_similarity prompt1 prompt2 ≤ 1 := by
  unfold LoopDetector.jaccard_similarity
  split_ifs with h
  · norm_num
  · push_neg at h
    obtain ⟨h1, _⟩ := h
    have hsub : (splitWords prompt1).toFinset ∩ (splitWords prompt2).toFinset ⊆
        (splitWords prompt1).toFinset ∪ (splitWords prompt2).toFinset := by
      intro x hx
      exact Finset.mem_union_left _ (Finset.mem_of_mem_inter_left hx)
    have hcard : ((splitWords prompt1).toFinset ∩ (splitWords prompt2).toFinset).card ≤
        ((splitWords prompt1).toFinset ∪ (splitWords prompt2).toFinset).card :=
      Finset.card_le_card hsub
    have hupos : 0 < ((splitWords prompt1).toFinset ∪ (splitWords prompt2).toFinset).card := by
      rcases Finset.eq_empty_or_nonempty (splitWords prompt1).toFinset with he | hne
      · exact absurd he h1
      · exact Finset.card_pos.mpr (hne.mono Finset.subset_union_left)
    constructor
    · positivity
    · rw [div_le_one (by exact_mod_cast hupos)]
      exact_mod_cast hcard

end SwarmTools
